import Mathlib

/-!
Verification of the sync-free scheduler of
`common/cuda_hip/components/syncfree.hpp` (struct `syncfree_storage` and
class template `syncfree_scheduler<block_size, subwarp_size, IndexType>`).

The embedding works over explicit state: the global status array (whose
final slot is the block counter, as laid out by `syncfree_storage`) and the
group-local shared status cache, both as lists of status words.  Device
operations are translated statement by statement into state transformers
that additionally emit a trace of observable memory/synchronization events,
so that ordering claims (barrier before publication, release stores, acquire
loads) can be stated about the traces.  The busy-wait loop in `wait` is
given fuel; running out of fuel models a spin that has not yet observed the
flag.  Machine integers are modelled as `Nat`: all quantities involved
(thread ids, counter values, work ids) are non-negative and far below any
overflow bound in real configurations.
-/

namespace Syncfree

/-- Observable events emitted by the device operations: the atomic
fetch-and-add on the block counter, plain shared-memory stores (the
`block_offset` broadcast and the local status reset in the constructor),
release stores and acquire loads on the local status cache
(`store_release_shared` / `load_acquire_shared`) and on the global status
array (`store_release` / `load_acquire`), and the lane-group / thread-block
barrier. -/
inductive Event where
  | atomicAdd (amount fetched : Nat)
  | storeSharedOffset (value : Nat)
  | storeSharedStatus (index value : Nat)
  | storeReleaseShared (index value : Nat)
  | storeRelease (index value : Nat)
  | loadAcquireShared (index : Nat)
  | loadAcquire (index : Nat)
  | barrier
  deriving DecidableEq, Repr

/-- Device memory state visible to one scheduler instance: `status` is the
global array allocated by `syncfree_storage` (its final slot is the block
counter), `localStatus` is the group's shared-memory status cache
(`shared_storage::status`). -/
structure DeviceState where
  status : List Nat
  localStatus : List Nat
  deriving DecidableEq, Repr

/-- Constructor of `syncfree_storage`: `resize_and_reset(num_elements + 1)`
followed by `fill_array(exec, status, num_elements + 1, 0)` produces an
array of `num_elements + 1` zero status words. -/
def syncfree_storage (num_elements : Nat) : List Nat :=
  List.replicate (num_elements + 1) 0

/-- Index of the block counter inside the status array:
`block_counter = status + num_elements`. -/
def block_counter_index (num_elements : Nat) : Nat := num_elements

/-- Member constant `local_dependency_count = block_size / subwarp_size`:
the number of work items owned by one physical group. -/
def local_dependency_count (block_size subwarp_size : Nat) : Nat :=
  block_size / subwarp_size

/-- Modelled from the spec: `atomic_add` of
`common/cuda_hip/components/atomic.hpp` is not under src/; per the spec it
is the atomic fetch-and-add claiming a range, so it returns the previous
counter value and leaves the counter incremented by `amount`. -/
def atomic_add (counter amount : Nat) : Nat × Nat :=
  (counter, counter + amount)

/-- Shared variable `block_offset` as written by thread 0 of the group:
`atomic_add(global.block_counter, 1) * block_size`, where `fetched` is the
value the atomic fetch-and-add returned. -/
def ctor_block_offset (block_size fetched : Nat) : Nat :=
  fetched * block_size

/-- Member `block_id = local.block_offset / block_size` computed at the end
of the constructor. -/
def ctor_block_id (block_size fetched : Nat) : Nat :=
  ctor_block_offset block_size fetched / block_size

/-- Member `work_id = (local.block_offset + threadIdx.x) / subwarp_size`
computed at the end of the constructor. -/
def ctor_work_id (block_size subwarp_size fetched tid : Nat) : Nat :=
  (ctor_block_offset block_size fetched + tid) / subwarp_size

/-- Immutable per-instance members of `syncfree_scheduler` set by the
constructor and never written afterwards. -/
structure Scheduler where
  work_id : Nat
  block_id : Nat
  deriving DecidableEq, Repr

/-- The scheduler members produced by the constructor for the thread with
id `tid` in a group whose `atomic_add` returned `fetched`. -/
def ctor (block_size subwarp_size fetched tid : Nat) : Scheduler :=
  { work_id := ctor_work_id block_size subwarp_size fetched tid
  , block_id := ctor_block_id block_size fetched }

/-- Member function `get_work_id()`: returns the stored `work_id`. -/
def get_work_id (sch : Scheduler) : Nat := sch.work_id

/-- Member function `get_lane()`: `threadIdx.x % subwarp_size`. -/
def get_lane (subwarp_size tid : Nat) : Nat := tid % subwarp_size

/-- Indices visited by the constructor's reset loop
`for (int i = threadIdx.x; i < local_dependency_count; i += subwarp_size)`
for one thread. -/
def ctor_reset_indices (cap subwarp_size i : Nat) : List Nat :=
  if h : i < cap ∧ 0 < subwarp_size then
    i :: ctor_reset_indices cap subwarp_size (i + subwarp_size)
  else
    []
termination_by cap - i
decreasing_by
  omega

/-- Event trace of the constructor body for the thread with id `tid`:
thread 0 performs the single `atomic_add(global.block_counter, 1)` and the
shared write of `block_offset`; every thread zeroes its strided share of the
local status cache; all threads meet at `__syncthreads()`. -/
def ctor_thread_events (block_size subwarp_size fetched tid : Nat) :
    List Event :=
  (if tid = 0 then
     [Event.atomicAdd 1 fetched,
      Event.storeSharedOffset (ctor_block_offset block_size fetched)]
   else []) ++
  ((ctor_reset_indices (local_dependency_count block_size subwarp_size)
      subwarp_size tid).map (fun i => Event.storeSharedStatus i 0)) ++
  [Event.barrier]

/-- Recognizer for the atomic fetch-and-add event. -/
def isAtomicAdd : Event → Bool
  | Event.atomicAdd _ _ => true
  | _ => false

/-- Body of `mark_ready()`: the lane-group barrier
`group::tiled_partition<subwarp_size>(group::this_thread_block()).sync()`
first, then lane 0 performs `store_release_shared(local.status + sh_id, 1)`
with `sh_id = get_work_id() % (block_size / subwarp_size)` followed by
`store_release(global.status + get_work_id(), 1)`.  Returns the final
device state and the event trace of the calling thread. -/
def mark_ready_exec (block_size subwarp_size : Nat) (sch : Scheduler)
    (tid : Nat) (s : DeviceState) : DeviceState × List Event :=
  if get_lane subwarp_size tid = 0 then
    let sh_id := get_work_id sch % (block_size / subwarp_size)
    let s1 : DeviceState := { s with localStatus := s.localStatus.set sh_id 1 }
    let s2 : DeviceState := { s1 with status := s1.status.set (get_work_id sch) 1 }
    (s2, [Event.barrier, Event.storeReleaseShared sh_id 1,
          Event.storeRelease (get_work_id sch) 1])
  else
    (s, [Event.barrier])

/-- Body of `peek(dependency)`: classify against the caller's `block_id`
via `dep_block = dependency / (block_size / subwarp_size)`, then return the
boolean value of a single acquire load (`load_acquire_shared` of the local
slot `dep_local = dependency % (block_size / subwarp_size)` in the local
case, `load_acquire` of the global flag `dependency` otherwise).  Returns
the boolean result, the (unchanged) device state, and the trace. -/
def peek_exec (block_size subwarp_size : Nat) (sch : Scheduler)
    (s : DeviceState) (dependency : Nat) : Bool × DeviceState × List Event :=
  let dep_block := dependency / (block_size / subwarp_size)
  let dep_local := dependency % (block_size / subwarp_size)
  if dep_block = sch.block_id then
    (s.localStatus.getD dep_local 0 != 0, s, [Event.loadAcquireShared dep_local])
  else
    (s.status.getD dependency 0 != 0, s, [Event.loadAcquire dependency])

/-- Busy-wait loop `while (!load_acquire(flag)) {}` polling a flag whose
value during the wait is `flagVal`, with `fuel` bounding the number of
polls performed; the result is the trace of acquire loads, or `none` when
the loop is still spinning after `fuel` polls. -/
def spin_reads (e : Event) (flagVal : Nat) : Nat → Option (List Event)
  | 0 => none
  | fuel + 1 =>
      if flagVal ≠ 0 then some [e]
      else Option.map (List.cons e) (spin_reads e flagVal fuel)

/-- Body of `wait(dependency)`: compute
`dep_block = dependency / (block_size / subwarp_size)` and
`dep_local = dependency % (block_size / subwarp_size)`; lane 0 spin-reads
with acquire ordering either the local status cache slot `dep_local` (when
`dep_block == block_id`) or the global status flag `dependency`; finally
every lane synchronizes on the lane-group barrier
`group::tiled_partition<subwarp_size>(group::this_thread_block()).sync()`.
The body performs no store, so only the trace of the calling thread is
returned; `none` means the calling thread is still spinning. -/
def wait_exec (block_size subwarp_size : Nat) (sch : Scheduler) (tid : Nat)
    (s : DeviceState) (dependency fuel : Nat) : Option (List Event) :=
  let dep_block := dependency / (block_size / subwarp_size)
  let dep_local := dependency % (block_size / subwarp_size)
  if get_lane subwarp_size tid = 0 then
    Option.map (fun t => t ++ [Event.barrier])
      (if dep_block = sch.block_id then
        spin_reads (Event.loadAcquireShared dep_local)
          (s.localStatus.getD dep_local 0) fuel
      else
        spin_reads (Event.loadAcquire dependency)
          (s.status.getD dependency 0) fuel)
  else
    some [Event.barrier]

/-- The four member operations a constructed scheduler can perform. -/
inductive SchedOp where
  | getWorkId
  | wait (dependency : Nat)
  | peek (dependency : Nat)
  | markReady
  deriving DecidableEq, Repr

/-- Effect of one scheduler operation on device memory: `get_work_id`
reads a member, `wait` performs only acquire loads and a barrier, `peek`
performs a single acquire load, and `mark_ready` is `mark_ready_exec`. -/
def apply_op (block_size subwarp_size : Nat) (sch : Scheduler) (tid : Nat) :
    SchedOp → DeviceState → DeviceState
  | SchedOp.getWorkId, s => s
  | SchedOp.wait _, s => s
  | SchedOp.peek _, s => s
  | SchedOp.markReady, s => (mark_ready_exec block_size subwarp_size sch tid s).1

/-- Scheduler-and-memory step: no operation writes the immutable members,
so the `Scheduler` component is passed through unchanged. -/
def apply_op_pair (block_size subwarp_size tid : Nat) (op : SchedOp)
    (p : Scheduler × DeviceState) : Scheduler × DeviceState :=
  (p.1, apply_op block_size subwarp_size p.1 tid op p.2)

/-- Fetched counter values, in execution order, when `g` groups each run
the constructor's `atomic_add(global.block_counter, 1)` once, starting from
counter value `c`.  Atomicity means the `g` fetch-and-adds happen in some
total order; the list position is that order, whichever physical groups
occupy it. -/
def run_claims : Nat → Nat → List Nat
  | 0, _ => []
  | g + 1, c =>
      let r := atomic_add c 1
      r.1 :: run_claims g r.2

/-- Membership of work item `w` in the logical range of the group whose
`atomic_add` returned `v`: some thread of the group (`tid < block_size`)
has `w` as its constructor-computed `work_id`. -/
def group_owns (block_size subwarp_size v w : Nat) : Prop :=
  ∃ tid, tid < block_size ∧ w = ctor_work_id block_size subwarp_size v tid

instance (block_size subwarp_size v w : Nat) :
    Decidable (group_owns block_size subwarp_size v w) :=
  decidable_of_iff (∃ tid ∈ Finset.range block_size,
      w = ctor_work_id block_size subwarp_size v tid) (by
    simp [group_owns, Finset.mem_range])

/-! Helper lemmas. -/

lemma getD_replicate_zero (n j : Nat) : (List.replicate n 0).getD j 0 = 0 := by
  simp only [List.getD_eq_getElem?_getD, List.getElem?_replicate]
  split <;> rfl

lemma getD_set_ne (l : List Nat) (i j v : Nat) (h : j ≠ i) :
    (l.set i v).getD j 0 = l.getD j 0 := by
  simp [List.getD_eq_getElem?_getD, List.getElem?_set_ne (Ne.symm h)]

lemma mark_ready_state_lane0 (block_size subwarp_size : Nat)
    (sch : Scheduler) (tid : Nat) (s : DeviceState)
    (h : get_lane subwarp_size tid = 0) :
    (mark_ready_exec block_size subwarp_size sch tid s).1 =
      ⟨s.status.set sch.work_id 1,
       s.localStatus.set (sch.work_id % (block_size / subwarp_size)) 1⟩ := by
  simp [mark_ready_exec, h, get_work_id]

lemma getD_set_one_cases (l : List Nat) (i j : Nat) :
    (l.set i 1).getD j 0 = l.getD j 0 ∨ (l.set i 1).getD j 0 = 1 := by
  by_cases hij : j = i
  · subst hij
    by_cases hlt : j < l.length
    · right
      simp [List.getD_eq_getElem?_getD, List.getElem?_set_self hlt]
    · left
      rw [List.set_eq_of_length_le (by omega)]
  · left
    exact getD_set_ne l i j 1 hij

lemma getD_set_one_keep (l : List Nat) (i j : Nat) (h : l.getD j 0 = 1) :
    (l.set i 1).getD j 0 = 1 := by
  rcases getD_set_one_cases l i j with h1 | h1
  · rw [h1, h]
  · exact h1

lemma apply_op_status_cases (block_size subwarp_size : Nat) (sch : Scheduler)
    (tid : Nat) (op : SchedOp) (s : DeviceState) (j : Nat) :
    ((apply_op block_size subwarp_size sch tid op s).status.getD j 0 =
        s.status.getD j 0 ∨
      (apply_op block_size subwarp_size sch tid op s).status.getD j 0 = 1) ∧
    ((apply_op block_size subwarp_size sch tid op s).localStatus.getD j 0 =
        s.localStatus.getD j 0 ∨
      (apply_op block_size subwarp_size sch tid op s).localStatus.getD j 0 = 1) := by
  cases op with
  | getWorkId => exact ⟨Or.inl rfl, Or.inl rfl⟩
  | wait d => exact ⟨Or.inl rfl, Or.inl rfl⟩
  | peek d => exact ⟨Or.inl rfl, Or.inl rfl⟩
  | markReady =>
      simp only [apply_op]
      by_cases h : get_lane subwarp_size tid = 0
      · rw [mark_ready_state_lane0 block_size subwarp_size sch tid s h]
        exact ⟨getD_set_one_cases _ _ _, getD_set_one_cases _ _ _⟩
      · have hstate : (mark_ready_exec block_size subwarp_size sch tid s).1 = s := by
          simp [mark_ready_exec, h]
        rw [hstate]
        exact ⟨Or.inl rfl, Or.inl rfl⟩

lemma apply_op_keep (block_size subwarp_size : Nat) (sch : Scheduler)
    (tid : Nat) (op : SchedOp) (s : DeviceState) (j : Nat) :
    (s.status.getD j 0 = 1 →
      (apply_op block_size subwarp_size sch tid op s).status.getD j 0 = 1) ∧
    (s.localStatus.getD j 0 = 1 →
      (apply_op block_size subwarp_size sch tid op s).localStatus.getD j 0 = 1) := by
  have hc := apply_op_status_cases block_size subwarp_size sch tid op s j
  constructor
  · intro h1
    rcases hc.1 with h2 | h2
    · rw [h2, h1]
    · exact h2
  · intro h1
    rcases hc.2 with h2 | h2
    · rw [h2, h1]
    · exact h2

lemma foldl_ops_keep (block_size subwarp_size : Nat) (sch : Scheduler)
    (tid : Nat) (ops : List SchedOp) (s : DeviceState) (j : Nat) :
    (s.status.getD j 0 = 1 →
      ((ops.foldl (fun st op => apply_op block_size subwarp_size sch tid op st)
          s)).status.getD j 0 = 1) ∧
    (s.localStatus.getD j 0 = 1 →
      ((ops.foldl (fun st op => apply_op block_size subwarp_size sch tid op st)
          s)).localStatus.getD j 0 = 1) := by
  induction ops generalizing s with
  | nil => exact ⟨fun h => h, fun h => h⟩
  | cons op rest ih =>
      refine ⟨fun h => ?_, fun h => ?_⟩
      · exact (ih _).1 ((apply_op_keep block_size subwarp_size sch tid op s j).1 h)
      · exact (ih _).2 ((apply_op_keep block_size subwarp_size sch tid op s j).2 h)

lemma foldl_pair_fst (block_size subwarp_size tid : Nat) (ops : List SchedOp)
    (p : Scheduler × DeviceState) :
    (ops.foldl (fun q op => apply_op_pair block_size subwarp_size tid op q)
        p).1 = p.1 := by
  induction ops generalizing p with
  | nil => rfl
  | cons op rest ih => exact (ih _).trans rfl

lemma run_claims_eq_range' (g c : Nat) : run_claims g c = List.range' c g := by
  induction g generalizing c with
  | zero => rfl
  | succ n ih =>
      simp only [run_claims, atomic_add, List.range'_succ]
      exact congrArg (List.cons c) (ih (c + 1))

lemma group_owns_iff (block_size subwarp_size v w : Nat)
    (hs : 0 < subwarp_size) (hd : subwarp_size ∣ block_size) :
    group_owns block_size subwarp_size v w ↔
      v * (block_size / subwarp_size) ≤ w ∧
        w < (v + 1) * (block_size / subwarp_size) := by
  obtain ⟨k, hk⟩ := hd
  subst hk
  rw [Nat.mul_div_cancel_left k hs]
  constructor
  · rintro ⟨tid, htid, rfl⟩
    rw [ctor_work_id, ctor_block_offset]
    rw [show v * (subwarp_size * k) = subwarp_size * (v * k) by ring]
    rw [Nat.mul_add_div hs]
    have hq : tid / subwarp_size < k := by
      rw [Nat.div_lt_iff_lt_mul hs]
      calc tid < subwarp_size * k := htid
        _ = k * subwarp_size := Nat.mul_comm _ _
    exact ⟨Nat.le_add_right _ _, by
      rw [Nat.add_mul, Nat.one_mul]
      exact Nat.add_lt_add_left hq (v * k)⟩
  · rintro ⟨h1, h2⟩
    rw [Nat.add_mul, Nat.one_mul] at h2
    have hlt : w - v * k < k := by
      have := Nat.sub_lt_sub_right h1 h2
      calc w - v * k < v * k + k - v * k := this
        _ = k := by rw [Nat.add_sub_cancel_left]
    refine ⟨(w - v * k) * subwarp_size, ?_, ?_⟩
    · calc (w - v * k) * subwarp_size < k * subwarp_size :=
            (Nat.mul_lt_mul_right hs).2 hlt
        _ = subwarp_size * k := Nat.mul_comm _ _
    · rw [ctor_work_id, ctor_block_offset]
      rw [show v * (subwarp_size * k) + (w - v * k) * subwarp_size
            = (v * k + (w - v * k)) * subwarp_size by ring]
      rw [Nat.mul_div_cancel _ hs]
      exact (Nat.add_sub_cancel' h1).symm

/-! Claim theorems. -/

/-- C1: for `G` physical groups over `N = G * capacity` work items (with
`capacity = block_size / subwarp_size`), the `atomic_add` on the group
counter hands out the values `0, 1, ..., G-1` in execution order, whatever
the physical order is; the logical ranges owned by the groups are pairwise
disjoint and their union is exactly `[0, N)`; the first group to claim
receives logical offset 0; and later claimers get strictly larger base
offsets. -/
theorem claim1_range_partition (block_size subwarp_size G : Nat)
    (hs : 0 < subwarp_size) (hd : subwarp_size ∣ block_size)
    (hb : 0 < block_size) :
    run_claims G 0 = List.range G ∧
    (∀ i j w, i < G → j < G → i ≠ j →
      ¬(group_owns block_size subwarp_size i w ∧
        group_owns block_size subwarp_size j w)) ∧
    (∀ w, (∃ i, i < G ∧ group_owns block_size subwarp_size i w) ↔
      w < G * (block_size / subwarp_size)) ∧
    (0 < G → (run_claims G 0).getD 0 0 = 0 ∧
      (run_claims G 0).getD 0 0 * (block_size / subwarp_size) = 0) ∧
    (∀ i j, i < j → j < G →
      (run_claims G 0).getD i 0 * (block_size / subwarp_size) <
        (run_claims G 0).getD j 0 * (block_size / subwarp_size)) := by
  have hrange : run_claims G 0 = List.range G := by
    rw [run_claims_eq_range', List.range_eq_range']
  have hcap : 0 < block_size / subwarp_size :=
    Nat.div_pos (Nat.le_of_dvd hb hd) hs
  have hget : ∀ i, i < G → (List.range G).getD i 0 = i := by
    intro i hi
    rw [List.getD_eq_getElem?_getD, List.getElem?_range hi]
    rfl
  refine ⟨hrange, ?_, ?_, ?_, ?_⟩
  · rintro i j w hi hj hij ⟨h1, h2⟩
    rw [group_owns_iff _ _ _ _ hs hd] at h1 h2
    rcases Nat.lt_or_ge i j with hlt | hge
    · have hle : (i + 1) * (block_size / subwarp_size) ≤
          j * (block_size / subwarp_size) :=
        Nat.mul_le_mul_right _ (Nat.succ_le_of_lt hlt)
      exact Nat.lt_irrefl w
        (Nat.lt_of_lt_of_le h1.2 (Nat.le_trans hle h2.1))
    · have hlt2 : j < i := Nat.lt_of_le_of_ne hge (fun he => hij he.symm)
      have hle : (j + 1) * (block_size / subwarp_size) ≤
          i * (block_size / subwarp_size) :=
        Nat.mul_le_mul_right _ (Nat.succ_le_of_lt hlt2)
      exact Nat.lt_irrefl w
        (Nat.lt_of_lt_of_le h2.2 (Nat.le_trans hle h1.1))
  · intro w
    constructor
    · rintro ⟨i, hi, hw⟩
      rw [group_owns_iff _ _ _ _ hs hd] at hw
      exact Nat.lt_of_lt_of_le hw.2
        (Nat.mul_le_mul_right _ (Nat.succ_le_of_lt hi))
    · intro hw
      refine ⟨w / (block_size / subwarp_size), ?_, ?_⟩
      · rw [Nat.div_lt_iff_lt_mul hcap]
        exact hw
      · rw [group_owns_iff _ _ _ _ hs hd]
        refine ⟨Nat.div_mul_le_self w _, ?_⟩
        rw [Nat.add_mul, Nat.one_mul]
        calc w = w / (block_size / subwarp_size) * (block_size / subwarp_size) +
              w % (block_size / subwarp_size) :=
            (Nat.div_add_mod' w (block_size / subwarp_size)).symm
          _ < w / (block_size / subwarp_size) * (block_size / subwarp_size) +
              block_size / subwarp_size :=
            Nat.add_lt_add_left (Nat.mod_lt w hcap) _
  · intro hG
    rw [hrange, hget 0 hG]
    exact ⟨rfl, Nat.zero_mul _⟩
  · intro i j hij hjG
    rw [hrange, hget i (Nat.lt_trans hij hjG), hget j hjG]
    exact (Nat.mul_lt_mul_right hcap).2 hij

theorem claim1_range_partition_witness :
    run_claims 3 0 = List.range 3 ∧
    (∀ i j w, i < 3 → j < 3 → i ≠ j →
      ¬(group_owns 8 2 i w ∧ group_owns 8 2 j w)) ∧
    (∀ w, (∃ i, i < 3 ∧ group_owns 8 2 i w) ↔ w < 3 * (8 / 2)) ∧
    (0 < 3 → (run_claims 3 0).getD 0 0 = 0 ∧
      (run_claims 3 0).getD 0 0 * (8 / 2) = 0) ∧
    (∀ i j, i < j → j < 3 →
      (run_claims 3 0).getD i 0 * (8 / 2) <
        (run_claims 3 0).getD j 0 * (8 / 2)) :=
  claim1_range_partition 8 2 3 (by decide) (by decide) (by decide)

/-- C6: Status Store initialization with item count `size` allocates exactly
`size + 1` flag words, zero-fills all of them (including the final slot)
before any group starts, and designates the final slot (index `size`) as
the atomic group counter. -/
theorem claim6_status_store_init (size : Nat) :
    (syncfree_storage size).length = size + 1 ∧
    (∀ j, j < size + 1 → (syncfree_storage size).getD j 0 = 0) ∧
    block_counter_index size = size ∧
    (syncfree_storage size).getD (block_counter_index size) 0 = 0 := by
  refine ⟨by simp [syncfree_storage], fun j _ => ?_, rfl, ?_⟩
  · exact getD_replicate_zero (size + 1) j
  · exact getD_replicate_zero (size + 1) (block_counter_index size)

theorem claim6_status_store_init_witness :
    (syncfree_storage 4).length = 4 + 1 ∧
    (∀ j, j < 4 + 1 → (syncfree_storage 4).getD j 0 = 0) ∧
    block_counter_index 4 = 4 ∧
    (syncfree_storage 4).getD (block_counter_index 4) 0 = 0 :=
  claim6_status_store_init 4

/-- C2: mark_ready first executes the lane-group barrier on every call, and
then (on every call) the designated lane, lane 0 of the lane-group, writes
Ready (1) with release ordering to the Local Status Cache slot of the
caller's work id, followed by Ready (1) with release ordering to the Status
Store flag at the caller's work id, in that order. -/
theorem claim2_mark_ready_order (block_size subwarp_size : Nat)
    (sch : Scheduler) (tid : Nat) (s : DeviceState) :
    ((mark_ready_exec block_size subwarp_size sch tid s).2.head? =
        some Event.barrier) ∧
    (get_lane subwarp_size tid = 0 →
      (mark_ready_exec block_size subwarp_size sch tid s).2 =
        [Event.barrier,
         Event.storeReleaseShared
           (get_work_id sch % (block_size / subwarp_size)) 1,
         Event.storeRelease (get_work_id sch) 1]) := by
  by_cases h : get_lane subwarp_size tid = 0 <;> simp [mark_ready_exec, h]

theorem claim2_mark_ready_order_witness :
    get_lane 2 0 = 0 ∧
    (mark_ready_exec 8 2 ⟨5, 1⟩ 0
        ⟨List.replicate 9 0, List.replicate 4 0⟩).2 =
      [Event.barrier, Event.storeReleaseShared (5 % (8 / 2)) 1,
       Event.storeRelease 5 1] :=
  ⟨by decide,
   (claim2_mark_ready_order 8 2 ⟨5, 1⟩ 0
      ⟨List.replicate 9 0, List.replicate 4 0⟩).2 (by decide)⟩

/-- C8: invoking mark_ready twice in succession for the same work item
leaves the final Status Store flag state and Local Status Cache state
identical to the state after a single invocation. -/
theorem claim8_mark_ready_idempotent (block_size subwarp_size : Nat)
    (sch : Scheduler) (tid : Nat) (s : DeviceState) :
    (mark_ready_exec block_size subwarp_size sch tid
        (mark_ready_exec block_size subwarp_size sch tid s).1).1 =
      (mark_ready_exec block_size subwarp_size sch tid s).1 := by
  by_cases h : get_lane subwarp_size tid = 0 <;>
    simp [mark_ready_exec, h, List.set_set]

theorem claim8_mark_ready_idempotent_witness :
    (mark_ready_exec 8 2 ⟨5, 1⟩ 0
        (mark_ready_exec 8 2 ⟨5, 1⟩ 0
          ⟨List.replicate 9 0, List.replicate 4 0⟩).1).1 =
      (mark_ready_exec 8 2 ⟨5, 1⟩ 0
        ⟨List.replicate 9 0, List.replicate 4 0⟩).1 :=
  claim8_mark_ready_idempotent 8 2 ⟨5, 1⟩ 0
    ⟨List.replicate 9 0, List.replicate 4 0⟩

/-- C10: mark_ready called by the lane-group owning work item `w =
sch.work_id` modifies only the Status Store flag at `w` and the Local
Status Cache slot at `w % (block_size / subwarp_size)`: every other Status
Store flag, every other local cache slot, the array lengths, and the group
counter slot are unchanged by the call. -/
theorem claim10_mark_ready_frame (block_size subwarp_size : Nat)
    (sch : Scheduler) (tid : Nat) (s : DeviceState) (num_elements : Nat)
    (hw : sch.work_id < num_elements) :
    (∀ j, j ≠ sch.work_id →
        ((mark_ready_exec block_size subwarp_size sch tid s).1).status.getD j 0 =
          s.status.getD j 0) ∧
    (∀ j, j ≠ sch.work_id % (block_size / subwarp_size) →
        ((mark_ready_exec block_size subwarp_size sch tid
            s).1).localStatus.getD j 0 =
          s.localStatus.getD j 0) ∧
    ((mark_ready_exec block_size subwarp_size sch tid s).1).status.getD
        (block_counter_index num_elements) 0 =
      s.status.getD (block_counter_index num_elements) 0 ∧
    ((mark_ready_exec block_size subwarp_size sch tid s).1).status.length =
      s.status.length ∧
    ((mark_ready_exec block_size subwarp_size sch tid s).1).localStatus.length =
      s.localStatus.length := by
  by_cases h : get_lane subwarp_size tid = 0
  · rw [mark_ready_state_lane0 block_size subwarp_size sch tid s h]
    refine ⟨fun j hj => getD_set_ne _ _ _ _ hj,
      fun j hj => getD_set_ne _ _ _ _ hj,
      getD_set_ne _ _ _ _ (by simp only [block_counter_index]; omega),
      List.length_set s.status sch.work_id 1,
      List.length_set s.localStatus (sch.work_id % (block_size / subwarp_size)) 1⟩
  · simp [mark_ready_exec, h]

theorem claim10_mark_ready_frame_witness :
    (∀ j, j ≠ 5 →
        ((mark_ready_exec 8 2 ⟨5, 1⟩ 0
            ⟨List.replicate 9 0, List.replicate 4 0⟩).1).status.getD j 0 =
          (⟨List.replicate 9 0, List.replicate 4 0⟩ :
            DeviceState).status.getD j 0) ∧
    (∀ j, j ≠ 5 % (8 / 2) →
        ((mark_ready_exec 8 2 ⟨5, 1⟩ 0
            ⟨List.replicate 9 0, List.replicate 4 0⟩).1).localStatus.getD j 0 =
          (⟨List.replicate 9 0, List.replicate 4 0⟩ :
            DeviceState).localStatus.getD j 0) ∧
    ((mark_ready_exec 8 2 ⟨5, 1⟩ 0
        ⟨List.replicate 9 0, List.replicate 4 0⟩).1).status.getD
        (block_counter_index 8) 0 =
      (⟨List.replicate 9 0, List.replicate 4 0⟩ :
        DeviceState).status.getD (block_counter_index 8) 0 ∧
    ((mark_ready_exec 8 2 ⟨5, 1⟩ 0
        ⟨List.replicate 9 0, List.replicate 4 0⟩).1).status.length =
      (⟨List.replicate 9 0, List.replicate 4 0⟩ :
        DeviceState).status.length ∧
    ((mark_ready_exec 8 2 ⟨5, 1⟩ 0
        ⟨List.replicate 9 0, List.replicate 4 0⟩).1).localStatus.length =
      (⟨List.replicate 9 0, List.replicate 4 0⟩ :
        DeviceState).localStatus.length :=
  claim10_mark_ready_frame 8 2 ⟨5, 1⟩ 0
    ⟨List.replicate 9 0, List.replicate 4 0⟩ 8 (by decide)

/-- C9: within one kernel invocation every status flag is monotonic: after
the initialization/group-entry reset, none of the scheduler operations
(get_work_id, wait, peek, mark_ready) writes NotReady (0) to any Status
Store flag or Local Status Cache slot — each operation either leaves a flag
unchanged or sets it to Ready (1) — so a flag holding Ready (1) holds Ready
after any sequence of scheduler operations. -/
theorem claim9_flags_monotonic (block_size subwarp_size : Nat)
    (sch : Scheduler) (tid : Nat) (s : DeviceState) (j : Nat)
    (ops : List SchedOp) :
    (∀ op : SchedOp,
      ((apply_op block_size subwarp_size sch tid op s).status.getD j 0 =
          s.status.getD j 0 ∨
        (apply_op block_size subwarp_size sch tid op s).status.getD j 0 = 1) ∧
      ((apply_op block_size subwarp_size sch tid op s).localStatus.getD j 0 =
          s.localStatus.getD j 0 ∨
        (apply_op block_size subwarp_size sch tid op s).localStatus.getD j 0 = 1)) ∧
    (s.status.getD j 0 = 1 →
      ((ops.foldl (fun st op => apply_op block_size subwarp_size sch tid op st)
          s)).status.getD j 0 = 1) ∧
    (s.localStatus.getD j 0 = 1 →
      ((ops.foldl (fun st op => apply_op block_size subwarp_size sch tid op st)
          s)).localStatus.getD j 0 = 1) :=
  ⟨fun op => apply_op_status_cases block_size subwarp_size sch tid op s j,
   (foldl_ops_keep block_size subwarp_size sch tid ops s j).1,
   (foldl_ops_keep block_size subwarp_size sch tid ops s j).2⟩

theorem claim9_flags_monotonic_witness :
    (∀ op : SchedOp,
      ((apply_op 8 2 ⟨5, 1⟩ 0 op ⟨[1, 0, 0], [1, 0]⟩).status.getD 0 0 =
          (⟨[1, 0, 0], [1, 0]⟩ : DeviceState).status.getD 0 0 ∨
        (apply_op 8 2 ⟨5, 1⟩ 0 op ⟨[1, 0, 0], [1, 0]⟩).status.getD 0 0 = 1) ∧
      ((apply_op 8 2 ⟨5, 1⟩ 0 op ⟨[1, 0, 0], [1, 0]⟩).localStatus.getD 0 0 =
          (⟨[1, 0, 0], [1, 0]⟩ : DeviceState).localStatus.getD 0 0 ∨
        (apply_op 8 2 ⟨5, 1⟩ 0 op ⟨[1, 0, 0], [1, 0]⟩).localStatus.getD 0 0 = 1)) ∧
    ((⟨[1, 0, 0], [1, 0]⟩ : DeviceState).status.getD 0 0 = 1 →
      (([SchedOp.markReady, SchedOp.peek 0].foldl
          (fun st op => apply_op 8 2 ⟨5, 1⟩ 0 op st)
          ⟨[1, 0, 0], [1, 0]⟩)).status.getD 0 0 = 1) ∧
    ((⟨[1, 0, 0], [1, 0]⟩ : DeviceState).localStatus.getD 0 0 = 1 →
      (([SchedOp.markReady, SchedOp.peek 0].foldl
          (fun st op => apply_op 8 2 ⟨5, 1⟩ 0 op st)
          ⟨[1, 0, 0], [1, 0]⟩)).localStatus.getD 0 0 = 1) :=
  claim9_flags_monotonic 8 2 ⟨5, 1⟩ 0 ⟨[1, 0, 0], [1, 0]⟩ 0
    [SchedOp.markReady, SchedOp.peek 0]

/-- C5: get_work_id returns the logical work-item id owned by the calling
lane's cooperating lane-group: the group's logical base offset in work-item
units (`block_offset / subwarp_size`, which equals the fetched counter
value times the per-group work-item capacity) plus the group-local
lane-group index `threadIdx.x / subwarp_size`; and the value is constant
across all calls within one scheduler instance, whatever operations are
performed in between. -/
theorem claim5_get_work_id (block_size subwarp_size fetched tid : Nat)
    (hs : 0 < subwarp_size) (hd : subwarp_size ∣ block_size)
    (s : DeviceState) (ops : List SchedOp) :
    get_work_id (ctor block_size subwarp_size fetched tid) =
      fetched * local_dependency_count block_size subwarp_size +
        tid / subwarp_size ∧
    ctor_block_offset block_size fetched / subwarp_size =
      fetched * local_dependency_count block_size subwarp_size ∧
    get_work_id ((ops.foldl
        (fun p op => apply_op_pair block_size subwarp_size tid op p)
        (ctor block_size subwarp_size fetched tid, s)).1) =
      get_work_id (ctor block_size subwarp_size fetched tid) := by
  obtain ⟨k, hk⟩ := hd
  have hcap : local_dependency_count block_size subwarp_size = k := by
    rw [local_dependency_count, hk, Nat.mul_div_cancel_left k hs]
  have hoff : ctor_block_offset block_size fetched = subwarp_size * (fetched * k) := by
    rw [ctor_block_offset, hk]
    ring
  refine ⟨?_, ?_, ?_⟩
  · rw [get_work_id, ctor, ctor_work_id, hoff, Nat.mul_add_div hs, hcap]
  · rw [hoff, hcap, Nat.mul_div_cancel_left _ hs]
  · rw [foldl_pair_fst]

theorem claim5_get_work_id_witness :
    get_work_id (ctor 8 2 3 5) = 3 * local_dependency_count 8 2 + 5 / 2 ∧
    ctor_block_offset 8 3 / 2 = 3 * local_dependency_count 8 2 ∧
    get_work_id (([SchedOp.markReady, SchedOp.wait 2].foldl
        (fun p op => apply_op_pair 8 2 5 op p)
        (ctor 8 2 3 5, ⟨List.replicate 13 0, List.replicate 4 0⟩)).1) =
      get_work_id (ctor 8 2 3 5) :=
  claim5_get_work_id 8 2 3 5 (by decide) (by decide)
    ⟨List.replicate 13 0, List.replicate 4 0⟩
    [SchedOp.markReady, SchedOp.wait 2]

/-- C4: in the range-claiming step of the scheduler constructor exactly one
lane per physical group — the lane with `threadIdx.x == 0` — performs a
single atomic fetch-and-add of 1 on the shared group counter, and the
group's logical base offset in work-item units (the work id of lane-group
0) equals the fetched counter value multiplied by the group's work-item
capacity `block_size / subwarp_size`. -/
theorem claim4_acquire_range (block_size subwarp_size fetched : Nat)
    (hs : 0 < subwarp_size) (hd : subwarp_size ∣ block_size)
    (hb : 0 < block_size) :
    (∀ tid, (ctor_thread_events block_size subwarp_size fetched tid).countP
        isAtomicAdd = if tid = 0 then 1 else 0) ∧
    Event.atomicAdd 1 fetched ∈ ctor_thread_events block_size subwarp_size fetched 0 ∧
    ((Finset.range block_size).sum
        (fun tid => (ctor_thread_events block_size subwarp_size fetched
          tid).countP isAtomicAdd)) = 1 ∧
    ctor_work_id block_size subwarp_size fetched 0 =
      fetched * local_dependency_count block_size subwarp_size := by
  obtain ⟨k, hk⟩ := hd
  have hcount : ∀ tid,
      (ctor_thread_events block_size subwarp_size fetched tid).countP
        isAtomicAdd = if tid = 0 then 1 else 0 := by
    intro tid
    by_cases h0 : tid = 0 <;>
      simp [ctor_thread_events, h0, List.countP_append, List.countP_map,
        List.countP_cons, isAtomicAdd, Function.comp, List.countP_eq_zero]
  refine ⟨hcount, by simp [ctor_thread_events], ?_, ?_⟩
  · rw [Finset.sum_congr rfl (fun t _ => hcount t)]
    rw [Finset.sum_ite_eq' (Finset.range block_size) 0 (fun _ => 1)]
    simp [Finset.mem_range, hb]
  · have hcap : local_dependency_count block_size subwarp_size = k := by
      rw [local_dependency_count, hk, Nat.mul_div_cancel_left k hs]
    rw [ctor_work_id, ctor_block_offset, hcap, hk, Nat.add_zero]
    rw [show fetched * (subwarp_size * k) = subwarp_size * (fetched * k) by ring]
    rw [Nat.mul_div_cancel_left _ hs]

theorem claim4_acquire_range_witness :
    (∀ tid, (ctor_thread_events 8 2 3 tid).countP isAtomicAdd =
        if tid = 0 then 1 else 0) ∧
    Event.atomicAdd 1 3 ∈ ctor_thread_events 8 2 3 0 ∧
    ((Finset.range 8).sum
        (fun tid => (ctor_thread_events 8 2 3 tid).countP isAtomicAdd)) = 1 ∧
    ctor_work_id 8 2 3 0 = 3 * local_dependency_count 8 2 :=
  claim4_acquire_range 8 2 3 (by decide) (by decide) (by decide)

lemma spin_reads_zero_flag (e : Event) (fuel : Nat) :
    spin_reads e 0 fuel = none := by
  induction fuel with
  | zero => rfl
  | succ n ih => simp [spin_reads, ih]

lemma spin_reads_ne_zero (e : Event) (v fuel : Nat) (hf : 0 < fuel)
    (hv : v ≠ 0) : spin_reads e v fuel = some [e] := by
  cases fuel with
  | zero => exact absurd hf (Nat.lt_irrefl 0)
  | succ n => simp [spin_reads, hv]

lemma spin_reads_isSome (e : Event) (v fuel : Nat) (hf : 0 < fuel) :
    (spin_reads e v fuel).isSome = (v != 0) := by
  by_cases hv : v = 0
  · subst hv
    simp [spin_reads_zero_flag]
  · simp [spin_reads_ne_zero e v fuel hf hv, hv]

/-- C3: for a dependency `d` below the caller's work id, wait classifies
`d` as local exactly when `d`'s logical block
`d / (block_size / subwarp_size)` equals the caller's block id; in the
local case the designated lane (lane 0) spin-reads the Local Status Cache
slot `d % (block_size / subwarp_size)` with acquire ordering until Ready
(with a static flag: one read and exit when the flag is set, spinning
forever when it stays 0), in the global case it spin-reads the Status
Store flag `d`; and in both cases — and on the non-designated lanes —
every cooperating lane synchronizes on the lane-group barrier before wait
returns. -/
theorem claim3_wait_classification (block_size subwarp_size tid d fuel : Nat)
    (sch : Scheduler) (s : DeviceState) (hfuel : 0 < fuel)
    (hdep : d < sch.work_id) :
    (get_lane subwarp_size tid = 0 →
      (d / (block_size / subwarp_size) = sch.block_id →
        wait_exec block_size subwarp_size sch tid s d fuel =
          if s.localStatus.getD (d % (block_size / subwarp_size)) 0 ≠ 0
          then some [Event.loadAcquireShared (d % (block_size / subwarp_size)),
                     Event.barrier]
          else none) ∧
      (¬(d / (block_size / subwarp_size) = sch.block_id) →
        wait_exec block_size subwarp_size sch tid s d fuel =
          if s.status.getD d 0 ≠ 0
          then some [Event.loadAcquire d, Event.barrier]
          else none)) ∧
    (¬(get_lane subwarp_size tid = 0) →
      wait_exec block_size subwarp_size sch tid s d fuel =
        some [Event.barrier]) ∧
    (∀ t, wait_exec block_size subwarp_size sch tid s d fuel = some t →
      t.getLast? = some Event.barrier) := by
  refine ⟨fun hlane => ⟨fun hloc => ?_, fun hloc => ?_⟩, fun hlane => ?_, ?_⟩
  · simp only [wait_exec]
    rw [if_pos hlane, if_pos hloc]
    by_cases hv : s.localStatus.getD (d % (block_size / subwarp_size)) 0 = 0
    · rw [hv, spin_reads_zero_flag]
      simp
    · rw [spin_reads_ne_zero _ _ fuel hfuel hv, if_pos hv]
      rfl
  · simp only [wait_exec]
    rw [if_pos hlane, if_neg hloc]
    by_cases hv : s.status.getD d 0 = 0
    · rw [hv, spin_reads_zero_flag]
      simp
    · rw [spin_reads_ne_zero _ _ fuel hfuel hv, if_pos hv]
      rfl
  · simp only [wait_exec]
    rw [if_neg hlane]
  · intro t ht
    simp only [wait_exec] at ht
    by_cases hlane : get_lane subwarp_size tid = 0
    · rw [if_pos hlane] at ht
      rcases Option.map_eq_some'.1 ht with ⟨t0, _, rfl⟩
      exact List.getLast?_concat t0
    · rw [if_neg hlane] at ht
      cases ht
      rfl

theorem claim3_wait_classification_witness :
    (get_lane 2 0 = 0 →
      (4 / (8 / 2) = (⟨5, 1⟩ : Scheduler).block_id →
        wait_exec 8 2 ⟨5, 1⟩ 0 ⟨List.replicate 13 0, [1, 0, 0, 0]⟩ 4 3 =
          if (⟨List.replicate 13 0, [1, 0, 0, 0]⟩ :
                DeviceState).localStatus.getD (4 % (8 / 2)) 0 ≠ 0
          then some [Event.loadAcquireShared (4 % (8 / 2)), Event.barrier]
          else none) ∧
      (¬(4 / (8 / 2) = (⟨5, 1⟩ : Scheduler).block_id) →
        wait_exec 8 2 ⟨5, 1⟩ 0 ⟨List.replicate 13 0, [1, 0, 0, 0]⟩ 4 3 =
          if (⟨List.replicate 13 0, [1, 0, 0, 0]⟩ :
                DeviceState).status.getD 4 0 ≠ 0
          then some [Event.loadAcquire 4, Event.barrier]
          else none)) ∧
    (¬(get_lane 2 0 = 0) →
      wait_exec 8 2 ⟨5, 1⟩ 0 ⟨List.replicate 13 0, [1, 0, 0, 0]⟩ 4 3 =
        some [Event.barrier]) ∧
    (∀ t, wait_exec 8 2 ⟨5, 1⟩ 0 ⟨List.replicate 13 0, [1, 0, 0, 0]⟩ 4 3 =
        some t → t.getLast? = some Event.barrier) :=
  claim3_wait_classification 8 2 0 4 3 ⟨5, 1⟩
    ⟨List.replicate 13 0, [1, 0, 0, 0]⟩ (by decide) (by decide)

/-- C7: peek applies the same local/global classification as wait (it
returns true exactly when the flag wait would spin on is already Ready),
returns the current boolean value of that flag (the Local Status Cache
slot `d % (block_size / subwarp_size)` when `d`'s block equals the
caller's block id, otherwise the Status Store flag `d`) with a single
acquire read, never spins (its trace is always exactly one load), performs
no barrier, and modifies no state. -/
theorem claim7_peek_nonblocking (block_size subwarp_size : Nat)
    (sch : Scheduler) (s : DeviceState) (d tid fuel : Nat) (hfuel : 0 < fuel)
    (hlane : get_lane subwarp_size tid = 0) :
    ((peek_exec block_size subwarp_size sch s d).1 =
      (wait_exec block_size subwarp_size sch tid s d fuel).isSome) ∧
    ((d / (block_size / subwarp_size) = sch.block_id →
        (peek_exec block_size subwarp_size sch s d).1 =
          (s.localStatus.getD (d % (block_size / subwarp_size)) 0 != 0)) ∧
     (¬(d / (block_size / subwarp_size) = sch.block_id) →
        (peek_exec block_size subwarp_size sch s d).1 =
          (s.status.getD d 0 != 0))) ∧
    ((peek_exec block_size subwarp_size sch s d).2.2.length = 1 ∧
     Event.barrier ∉ (peek_exec block_size subwarp_size sch s d).2.2 ∧
     (d / (block_size / subwarp_size) = sch.block_id →
        (peek_exec block_size subwarp_size sch s d).2.2 =
          [Event.loadAcquireShared (d % (block_size / subwarp_size))]) ∧
     (¬(d / (block_size / subwarp_size) = sch.block_id) →
        (peek_exec block_size subwarp_size sch s d).2.2 =
          [Event.loadAcquire d])) ∧
    (peek_exec block_size subwarp_size sch s d).2.1 = s := by
  by_cases hb : d / (block_size / subwarp_size) = sch.block_id
  · refine ⟨?_, ⟨fun _ => ?_, fun h => absurd hb h⟩,
      ⟨?_, ?_, fun _ => ?_, fun h => absurd hb h⟩, ?_⟩
    · simp [peek_exec, wait_exec, hb, hlane,
        spin_reads_isSome _ _ fuel hfuel]
    · simp [peek_exec, hb]
    · simp [peek_exec, hb]
    · simp [peek_exec, hb]
    · simp [peek_exec, hb]
    · simp [peek_exec, hb]
  · refine ⟨?_, ⟨fun h => absurd h hb, fun _ => ?_⟩,
      ⟨?_, ?_, fun h => absurd h hb, fun _ => ?_⟩, ?_⟩
    · simp [peek_exec, wait_exec, hb, hlane,
        spin_reads_isSome _ _ fuel hfuel]
    · simp [peek_exec, hb]
    · simp [peek_exec, hb]
    · simp [peek_exec, hb]
    · simp [peek_exec, hb]
    · simp [peek_exec, hb]

theorem claim7_peek_nonblocking_witness :
    ((peek_exec 8 2 ⟨5, 1⟩ ⟨List.replicate 13 0, [1, 0, 0, 0]⟩ 4).1 =
      (wait_exec 8 2 ⟨5, 1⟩ 0 ⟨List.replicate 13 0, [1, 0, 0, 0]⟩ 4 1).isSome) ∧
    ((4 / (8 / 2) = (⟨5, 1⟩ : Scheduler).block_id →
        (peek_exec 8 2 ⟨5, 1⟩ ⟨List.replicate 13 0, [1, 0, 0, 0]⟩ 4).1 =
          ((⟨List.replicate 13 0, [1, 0, 0, 0]⟩ :
              DeviceState).localStatus.getD (4 % (8 / 2)) 0 != 0)) ∧
     (¬(4 / (8 / 2) = (⟨5, 1⟩ : Scheduler).block_id) →
        (peek_exec 8 2 ⟨5, 1⟩ ⟨List.replicate 13 0, [1, 0, 0, 0]⟩ 4).1 =
          ((⟨List.replicate 13 0, [1, 0, 0, 0]⟩ :
              DeviceState).status.getD 4 0 != 0))) ∧
    ((peek_exec 8 2 ⟨5, 1⟩ ⟨List.replicate 13 0, [1, 0, 0, 0]⟩ 4).2.2.length = 1 ∧
     Event.barrier ∉
       (peek_exec 8 2 ⟨5, 1⟩ ⟨List.replicate 13 0, [1, 0, 0, 0]⟩ 4).2.2 ∧
     (4 / (8 / 2) = (⟨5, 1⟩ : Scheduler).block_id →
        (peek_exec 8 2 ⟨5, 1⟩ ⟨List.replicate 13 0, [1, 0, 0, 0]⟩ 4).2.2 =
          [Event.loadAcquireShared (4 % (8 / 2))]) ∧
     (¬(4 / (8 / 2) = (⟨5, 1⟩ : Scheduler).block_id) →
        (peek_exec 8 2 ⟨5, 1⟩ ⟨List.replicate 13 0, [1, 0, 0, 0]⟩ 4).2.2 =
          [Event.loadAcquire 4])) ∧
    (peek_exec 8 2 ⟨5, 1⟩ ⟨List.replicate 13 0, [1, 0, 0, 0]⟩ 4).2.1 =
      ⟨List.replicate 13 0, [1, 0, 0, 0]⟩ :=
  claim7_peek_nonblocking 8 2 ⟨5, 1⟩ ⟨List.replicate 13 0, [1, 0, 0, 0]⟩ 4 0 1
    (by decide) (by decide)

end Syncfree
